import Mathlib

/-!
Shallow embedding of the minidb in-memory key/value store
(source: src/minidb/minidb.go).

Go strings are modelled as lists of characters, the in-memory store
(a Go map from key to a pointer to a valueWr) as an association list
from key to valueWr, and in-place mutation of an entry as re-inserting
the updated entry under its key.  Each HTTP handler becomes a pure
function from the pre-state and the request data to the response and
the post-state; a run-time panic (unlocking an unlocked sync.Mutex, or
an out-of-range path-segment index) is modelled as the result `none`.
The crypto/rand source is modelled by a `RandRead` record carrying the
contents of the 16-byte buffer after the call together with the error
the call reported, exactly the two results the Go code receives.
-/

/-- Go strings, modelled as lists of characters. -/
abbrev Str := List Char

/-- Path of the /reservations/ endpoint (constant PathReservations). -/
def PathReservations : Str := "/reservations/".toList

/-- Path of the /values/ endpoint (constant PathValues). -/
def PathValues : Str := "/values/".toList

/-- Length of lock ids in bytes (constant LockIdLength); doubled when hex-encoded. -/
def LockIdLength : Nat := 16

/-- strings.Split with a one-character separator, on the list-of-characters
model of strings: splits `l` around every occurrence of `sep`, keeping
empty segments, and yields `[[]]` on the empty string, exactly as Go does. -/
def splitOnChar (sep : Char) : Str → List Str
  | [] => [[]]
  | c :: rest =>
    if c = sep then
      [] :: splitOnChar sep rest
    else
      match splitOnChar sep rest with
      | [] => [[c]]
      | s :: ss => (c :: s) :: ss

/-- The valueWr struct: the value, the current lock id (empty string when
unlocked) and the per-entry sync.Mutex, modelled by whether it is held. -/
structure ValueWr where
  value : Str
  lockId : Str
  muxHeld : Bool
deriving DecidableEq

/-- Outcome of a crypto/rand.Read call into the 16-byte buffer: the buffer
contents after the call, and the error the call reported (if any).  On a
failed read the untouched part of the buffer keeps the zero bytes that
make([]byte, n) initialized it with. -/
structure RandRead where
  bytes : List Nat
  err : Option Str
deriving DecidableEq

/-- The lowercase hexadecimal alphabet used by encoding/hex. -/
def hexDigits : List Char := "0123456789abcdef".toList

/-- The hex digit for a nibble (encoding/hex table lookup). -/
def hexDigit (n : Nat) : Char := hexDigits.getD n '0'

/-- hex.EncodeToString on a byte list: each byte becomes its high nibble's
digit followed by its low nibble's digit. -/
def hexEncode : List Nat → Str
  | [] => []
  | b :: rest => hexDigit (b / 16) :: hexDigit (b % 16) :: hexEncode rest

/-- genLockId: allocates a LockIdLength-byte buffer, fills it from
crypto/rand (an error is only logged, never propagated: the buffer is hex
encoded and returned regardless), and returns the hex encoding. -/
def genLockId (r : RandRead) : Str := hexEncode r.bytes

/-- valueWr.Lock: waits for the entry's mutex (releasing the store mutex
while waiting, re-acquiring it afterwards; that interleaving is modelled
separately by `lockBody` below) and then acquires it and stores a freshly
generated lock id.  This function gives the entry's state once the
acquisition has completed. -/
def ValueWr.Lock (vw : ValueWr) (r : RandRead) : ValueWr :=
  { vw with muxHeld := true, lockId := genLockId r }

/-- valueWr.Unlock: clears the lock id, then unlocks the entry's mutex.
Unlocking an unlocked sync.Mutex is a Go run-time panic, modelled as
`none`. -/
def ValueWr.Unlock (vw : ValueWr) : Option ValueWr :=
  if vw.muxHeld then some { vw with lockId := [], muxHeld := false } else none

/-- The two validation errors of checkKey. -/
inductive KeyErr where
  | keyMissing
  | keyInvalid
deriving DecidableEq

/-- checkKey: an empty key is missing, a key containing the byte '/'
(strings.IndexByte(key, '/') >= 0) is invalid; any other key is accepted. -/
def checkKey (key : Str) : Option KeyErr :=
  if key = [] then some KeyErr.keyMissing
  else if '/' ∈ key then some KeyErr.keyInvalid
  else none

/-- The HTTP responses the two handlers can produce, one constructor per
distinct status/body the Go code writes. -/
inductive Resp where
  | keyError (e : KeyErr)
  | badRelease
  | badMethodPost
  | badMethodPostPut
  | notFound
  | unauthorized
  | noContent
  | okJson (lockId : Str) (value : Option Str)
deriving DecidableEq

/-- The HTTP methods the handlers distinguish. -/
inductive Method where
  | post
  | put
  | other
deriving DecidableEq

/-- The in-memory store: an association list from key to its valueWr
(the Go map from string to a valueWr pointer). -/
abbrev Store := List (Str × ValueWr)

/-- Go map lookup store[key]: first binding of the key, if any. -/
def storeLookup : Store → Str → Option ValueWr
  | [], _ => none
  | q :: rest, key => if q.1 = key then some q.2 else storeLookup rest key

/-- Go map update store[key] = vw: replaces the key's binding, or appends
a new one. -/
def storeInsert : Store → Str → ValueWr → Store
  | [], key, vw => [(key, vw)]
  | q :: rest, key, vw =>
    if q.1 = key then (key, vw) :: rest else q :: storeInsert rest key vw

/-- The result of reading the request body, as the handler receives it:
either the bytes, or a read error. -/
abbrev Body := Except Str Str

/-- readBody: reads the request body and, on success, stores it as the
entry's new value; on failure logs and returns the error, leaving the
value untouched.  The pair is the updated entry and the returned error. -/
def readBody (vw : ValueWr) (body : Body) : ValueWr × Option Str :=
  match body with
  | Except.error e => (vw, some e)
  | Except.ok content => ({ vw with value := content }, none)

/-- r.URL.Query().Get name: the query value, or the empty string when the
parameter is absent. -/
def queryGet (q : Option Str) : Str := q.getD []

/-- valuesHandler: splits the path on '/', takes the key from segment 2
and (for POST) the lock id from segment 3, validates the key, and then
dispatches on the method.  POST is the authorized write-or-release:
release must be exactly "true" or "false" and the lock-id segment must
be present, the key must exist, and the presented lock id must equal the
entry's; then the body is read (a read error is ignored), the entry is
released when release is "true", and 204 is returned.  PUT is
create-or-update: lazily creates the entry, acquires its lock, reads the
body (a read error is ignored) and returns the lock id as JSON.  The
result is `none` when the Go code would panic. -/
def valuesHandler (st : Store) (method : Method) (path : Str)
    (releaseQ : Option Str) (body : Body) (r : RandRead) :
    Option (Resp × Store) :=
  let parts := splitOnChar '/' path
  match parts.get? 2 with
  | none => none
  | some key =>
    match checkKey key with
    | some e => some (Resp.keyError e, st)
    | none =>
      match method with
      | Method.post =>
        let release := queryGet releaseQ
        if parts.length < 4 ∨ (release ≠ "false".toList ∧ release ≠ "true".toList) then
          some (Resp.badRelease, st)
        else
          match storeLookup st key with
          | none => some (Resp.notFound, st)
          | some vw =>
            if vw.lockId ≠ parts.getD 3 [] then
              some (Resp.unauthorized, st)
            else
              let vw1 := (readBody vw body).1
              if release = "true".toList then
                match vw1.Unlock with
                | none => none
                | some vw2 => some (Resp.noContent, storeInsert st key vw2)
              else
                some (Resp.noContent, storeInsert st key vw1)
      | Method.put =>
        let vw := (storeLookup st key).getD ⟨[], [], false⟩
        let vw1 := ValueWr.Lock vw r
        let vw2 := (readBody vw1 body).1
        some (Resp.okJson vw2.lockId none, storeInsert st key vw2)
      | Method.other => some (Resp.badMethodPostPut, st)

/-- reservationsHandler: only POST is accepted; the key is the remainder
of the path after the /reservations/ path (with no validation); an
unknown key is 404; otherwise the entry's lock is acquired (blocking if
needed) and the fresh lock id and the value are returned as JSON. -/
def reservationsHandler (st : Store) (method : Method) (path : Str)
    (r : RandRead) : Resp × Store :=
  if method ≠ Method.post then (Resp.badMethodPost, st)
  else
    let key := path.drop PathReservations.length
    match storeLookup st key with
    | none => (Resp.notFound, st)
    | some vw =>
      let vw1 := ValueWr.Lock vw r
      (Resp.okJson vw1.lockId (some vw1.value), storeInsert st key vw1)

/-- The atomic synchronization actions performed by the body of
valueWr.Lock, in source order: release the store mutex, block on the
entry's mutex, store the fresh lock id, and (the deferred call, running
on exit) re-acquire the store mutex. -/
inductive LockStep where
  | releaseStoreGuard
  | blockOnEntryMux
  | setFreshLockId
  | acquireStoreGuard
deriving DecidableEq

/-- The body of valueWr.Lock as its sequence of synchronization actions:
storeMux.Unlock(); (defer storeMux.Lock()); vw.Mux.Lock();
vw.LockId = genLockId() — the deferred re-acquisition runs last. -/
def lockBody : List LockStep :=
  [LockStep.releaseStoreGuard, LockStep.blockOnEntryMux,
   LockStep.setFreshLockId, LockStep.acquireStoreGuard]

/-- Whether the store guard is held after one action, given whether it
was held before it. -/
def guardHeldAfter (held : Bool) : LockStep → Bool
  | LockStep.releaseStoreGuard => false
  | LockStep.acquireStoreGuard => true
  | _ => held

/-- Whether the store guard is held just before the i-th action of a
sequence, given whether it was held at entry. -/
def guardHeldAt (init : Bool) (steps : List LockStep) (i : Nat) : Bool :=
  (steps.take i).foldl guardHeldAfter init

/-- The per-entry invariant: the lock id is non-empty exactly when the
entry's mutex is held. -/
def EntryInv (vw : ValueWr) : Prop := vw.lockId ≠ [] ↔ vw.muxHeld = true

instance (vw : ValueWr) : Decidable (EntryInv vw) := by
  unfold EntryInv; infer_instance

/-- The store-wide invariant: every entry of the store satisfies
`EntryInv`. -/
def StoreInv (st : Store) : Prop := ∀ p ∈ st, EntryInv p.2

instance (st : Store) : Decidable (StoreInv st) := by
  unfold StoreInv; infer_instance

/-! ### Helper lemmas -/

/-- splitOnChar never returns the empty list of segments. -/
theorem splitOnChar_ne_nil (sep : Char) (l : Str) : splitOnChar sep l ≠ [] := by
  cases l with
  | nil => simp [splitOnChar]
  | cons c rest =>
    simp only [splitOnChar]
    split
    · simp
    · split <;> simp

/-- No segment returned by splitOnChar contains the separator. -/
theorem splitOnChar_sep_not_mem (sep : Char) :
    ∀ l : Str, ∀ s ∈ splitOnChar sep l, sep ∉ s := by
  intro l
  induction l with
  | nil =>
    intro s hs
    simp only [splitOnChar, List.mem_singleton] at hs
    simp [hs]
  | cons c rest ih =>
    intro s hs
    simp only [splitOnChar] at hs
    by_cases hc : c = sep
    · rw [if_pos hc] at hs
      rcases List.mem_cons.mp hs with h | h
      · simp [h]
      · exact ih s h
    · rw [if_neg hc] at hs
      cases hsp : splitOnChar sep rest with
      | nil => exact absurd hsp (splitOnChar_ne_nil sep rest)
      | cons s0 ss =>
        rw [hsp] at hs
        rcases List.mem_cons.mp hs with h | h
        · subst h
          intro hmem
          rcases List.mem_cons.mp hmem with h' | h'
          · exact hc h'.symm
          · exact ih s0 (by rw [hsp]; exact List.mem_cons_self s0 ss) h'
        · exact ih s (by rw [hsp]; exact List.mem_cons_of_mem s0 h)

/-- hexEncode doubles the length. -/
theorem hexEncode_length (bs : List Nat) : (hexEncode bs).length = 2 * bs.length := by
  induction bs with
  | nil => simp [hexEncode]
  | cons b rest ih => simp [hexEncode, ih]; ring

/-- The digit of a nibble is in the hex alphabet. -/
theorem hexDigit_mem (n : Nat) (h : n < 16) : hexDigit n ∈ hexDigits := by
  unfold hexDigit
  interval_cases n <;> decide

/-- Every character of the hex encoding of a byte list is in the hex
alphabet. -/
theorem hexEncode_mem (bs : List Nat) (hb : ∀ b ∈ bs, b < 256) :
    ∀ c ∈ hexEncode bs, c ∈ hexDigits := by
  induction bs with
  | nil => simp [hexEncode]
  | cons b rest ih =>
    intro c hc
    have hbb : b < 256 := hb b (List.mem_cons_self b rest)
    simp only [hexEncode, List.mem_cons] at hc
    rcases hc with h | h | h
    · subst h
      exact hexDigit_mem _ (Nat.div_lt_of_lt_mul (by omega))
    · subst h
      exact hexDigit_mem _ (Nat.mod_lt _ (by omega))
    · exact ih (fun x hx => hb x (List.mem_cons_of_mem b hx)) c h

/-- A generated lock id is never the empty string (given the 16-byte
buffer the Go code always passes). -/
theorem genLockId_ne_nil (r : RandRead) (h : r.bytes.length = LockIdLength) :
    genLockId r ≠ [] := by
  unfold genLockId
  intro hnil
  have hl := hexEncode_length r.bytes
  rw [hnil, h] at hl
  simp [LockIdLength] at hl

/-- Every binding of an updated store is the new binding or an old one. -/
theorem mem_storeInsert (st : Store) (key : Str) (vw : ValueWr) :
    ∀ p ∈ storeInsert st key vw, p = (key, vw) ∨ p ∈ st := by
  induction st with
  | nil =>
    intro p hp
    simp only [storeInsert, List.mem_singleton] at hp
    exact Or.inl hp
  | cons q rest ih =>
    intro p hp
    simp only [storeInsert] at hp
    split at hp
    · rcases List.mem_cons.mp hp with h | h
      · exact Or.inl h
      · exact Or.inr (List.mem_cons_of_mem q h)
    · rcases List.mem_cons.mp hp with h | h
      · exact Or.inr (h ▸ List.mem_cons_self q rest)
      · rcases ih p h with h' | h'
        · exact Or.inl h'
        · exact Or.inr (List.mem_cons_of_mem q h')

/-- A successful lookup returns a binding of the store. -/
theorem storeLookup_mem (st : Store) (key : Str) (vw : ValueWr)
    (h : storeLookup st key = some vw) : (key, vw) ∈ st := by
  induction st with
  | nil => simp [storeLookup] at h
  | cons q rest ih =>
    simp only [storeLookup] at h
    split at h
    · rename_i hq
      injection h with h
      have : q = (key, vw) := by
        cases q
        simp_all
      exact this ▸ List.mem_cons_self q rest
    · exact List.mem_cons_of_mem q (ih h)

/-- Updating a store whose entries all satisfy the invariant with an
entry satisfying it preserves the store invariant. -/
theorem StoreInv_insert (st : Store) (key : Str) (vw : ValueWr)
    (hst : StoreInv st) (hvw : EntryInv vw) : StoreInv (storeInsert st key vw) := by
  intro p hp
  rcases mem_storeInsert st key vw p hp with h | h
  · rw [h]
    exact hvw
  · exact hst p h

/-- Reading the body never changes the lock id or the mutex state, so it
preserves the entry invariant. -/
theorem EntryInv_readBody (vw : ValueWr) (body : Body) (h : EntryInv vw) :
    EntryInv (readBody vw body).1 := by
  cases body <;> simpa [readBody, EntryInv] using h

/-- Acquiring an entry's lock establishes the entry invariant: a fresh
non-empty lock id is stored and the mutex is held. -/
theorem EntryInv_Lock (vw : ValueWr) (r : RandRead)
    (hr : r.bytes.length = LockIdLength) : EntryInv (ValueWr.Lock vw r) := by
  simp only [EntryInv, ValueWr.Lock]
  exact ⟨fun _ => trivial, fun _ => genLockId_ne_nil r hr⟩

/-- Releasing an entry's lock re-establishes the entry invariant: the
lock id is cleared and the mutex released. -/
theorem EntryInv_Unlock (vw vw' : ValueWr) (h : ValueWr.Unlock vw = some vw') :
    vw'.lockId = [] ∧ vw'.muxHeld = false ∧ EntryInv vw' := by
  simp only [ValueWr.Unlock] at h
  split at h
  · injection h with h
    subst h
    refine ⟨rfl, rfl, ?_⟩
    simp [EntryInv]
  · exact absurd h (by simp)

/-- In the /values/ handler the key-invalid rejection is unreachable: the
key is a '/'-separated segment of the path and can never contain '/'. -/
theorem keyInvalid_unreachable (st : Store) (method : Method) (path : Str)
    (rq : Option Str) (body : Body) (r : RandRead) (resp : Resp) (st' : Store)
    (h : valuesHandler st method path rq body r = some (resp, st')) :
    resp ≠ Resp.keyError KeyErr.keyInvalid := by
  intro hresp
  subst hresp
  simp only [valuesHandler] at h
  split at h
  · simp at h
  · rename_i key hkey
    have hslash : '/' ∉ key :=
      splitOnChar_sep_not_mem '/' path key (List.get?_mem hkey)
    split at h
    · rename_i e hck
      simp only [Option.some.injEq, Prod.mk.injEq] at h
      obtain ⟨h1, h2⟩ := h
      injection h1 with h1
      subst h1
      rw [checkKey] at hck
      by_cases hke : key = []
      · rw [if_pos hke] at hck
        simp at hck
      · rw [if_neg hke, if_neg hslash] at hck
        simp at hck
    · split at h
      · split at h
        · simp at h
        · split at h
          · simp at h
          · split at h
            · simp at h
            · split at h
              · split at h <;> simp at h
              · simp at h
      · simp at h
      · simp at h

/-- Every store produced by a non-panicking run of the /values/ handler
satisfies the entry invariant everywhere, provided the input store did. -/
theorem StoreInv_valuesHandler (st : Store) (r : RandRead)
    (hr : r.bytes.length = LockIdLength) (hst : StoreInv st)
    (method : Method) (path : Str) (rq : Option Str) (body : Body)
    (resp : Resp) (st' : Store)
    (h : valuesHandler st method path rq body r = some (resp, st')) :
    StoreInv st' := by
  simp only [valuesHandler] at h
  split at h
  · exact absurd h (by simp)
  · rename_i key hkey
    split at h
    · simp only [Option.some.injEq, Prod.mk.injEq] at h
      exact h.2 ▸ hst
    · split at h
      · split at h
        · simp only [Option.some.injEq, Prod.mk.injEq] at h
          exact h.2 ▸ hst
        · split at h
          · simp only [Option.some.injEq, Prod.mk.injEq] at h
            exact h.2 ▸ hst
          · rename_i vw hlook
            have hvw : EntryInv vw := hst _ (storeLookup_mem st key vw hlook)
            split at h
            · simp only [Option.some.injEq, Prod.mk.injEq] at h
              exact h.2 ▸ hst
            · split at h
              · split at h
                · exact absurd h (by simp)
                · rename_i vw2 hun
                  simp only [Option.some.injEq, Prod.mk.injEq] at h
                  have h2 := EntryInv_Unlock _ _ hun
                  exact h.2 ▸ StoreInv_insert st key vw2 hst h2.2.2
              · simp only [Option.some.injEq, Prod.mk.injEq] at h
                exact h.2 ▸ StoreInv_insert st key _ hst (EntryInv_readBody vw body hvw)
      · simp only [Option.some.injEq, Prod.mk.injEq] at h
        refine h.2 ▸ StoreInv_insert st key _ hst ?_
        exact EntryInv_readBody _ body (EntryInv_Lock _ r hr)
      · simp only [Option.some.injEq, Prod.mk.injEq] at h
        exact h.2 ▸ hst

/-- Every store produced by the /reservations/ handler satisfies the
entry invariant everywhere, provided the input store did. -/
theorem StoreInv_reservationsHandler (st : Store) (r : RandRead)
    (hr : r.bytes.length = LockIdLength) (hst : StoreInv st)
    (method : Method) (path : Str) (resp : Resp) (st' : Store)
    (h : reservationsHandler st method path r = (resp, st')) :
    StoreInv st' := by
  simp only [reservationsHandler] at h
  split at h
  · simp only [Prod.mk.injEq] at h
    exact h.2 ▸ hst
  · split at h
    · simp only [Prod.mk.injEq] at h
      exact h.2 ▸ hst
    · rename_i vw hlook
      simp only [Prod.mk.injEq] at h
      exact h.2 ▸ StoreInv_insert st _ _ hst (EntryInv_Lock vw r hr)

/-! ### Claims -/

/-- Claim C1 (code bug exhibited): on an existing entry in the UNLOCKED
state (lock id cleared, mutex free), a write-or-release POST presenting
the empty lock id (path /values/k/ with a trailing slash) is NOT
rejected as Unauthorized: with release=false it succeeds with 204 and
overwrites the value, and with release=true the code reaches
vw.Unlock() on an unheld mutex, a run-time panic. -/
theorem values_post_empty_token_accepted_while_unlocked :
    valuesHandler [("k".toList, ⟨"v".toList, [], false⟩)] Method.post
        "/values/k/".toList (some "false".toList) (Except.ok "w".toList)
        ⟨List.replicate 16 0, none⟩
      = some (Resp.noContent, [("k".toList, ⟨"w".toList, [], false⟩)]) ∧
    valuesHandler [("k".toList, ⟨"v".toList, [], false⟩)] Method.post
        "/values/k/".toList (some "true".toList) (Except.ok "w".toList)
        ⟨List.replicate 16 0, none⟩
      = none := by decide

/-- Claim C2 (counterexample): with an existing entry locked under token
"t" and a POST presenting the matching token but NO release parameter,
the code rejects the request as malformed instead of succeeding, so the
release flag is not optional. -/
theorem values_post_absent_release_rejected :
    valuesHandler [("k".toList, ⟨"v".toList, "t".toList, true⟩)] Method.post
        "/values/k/t".toList none (Except.ok "w".toList)
        ⟨List.replicate 16 0, none⟩
      = some (Resp.badRelease, [("k".toList, ⟨"v".toList, "t".toList, true⟩)]) ∧
    Resp.badRelease ≠ Resp.noContent := by decide

/-- Claim C2 (amended): the release flag is mandatory: the POST fails as
malformed exactly when the lock-id path segment is absent (fewer than
four '/'-separated segments) or the release query value is not exactly
"true" or "false" (an absent release parameter reads as the empty string
and is therefore malformed); when the segment is present, release is
"false" and the presented lock id matches, the operation succeeds with
204, overwriting the value without a release. -/
theorem values_post_release_flag_required (st : Store) (path : Str)
    (rq : Option Str) (body : Body) (r : RandRead) (key : Str)
    (hkey : (splitOnChar '/' path).get? 2 = some key)
    (hck : checkKey key = none) :
    (valuesHandler st Method.post path rq body r = some (Resp.badRelease, st) ↔
      ((splitOnChar '/' path).length < 4 ∨
        (queryGet rq ≠ "false".toList ∧ queryGet rq ≠ "true".toList))) ∧
    (∀ vw : ValueWr,
      ¬((splitOnChar '/' path).length < 4 ∨
        (queryGet rq ≠ "false".toList ∧ queryGet rq ≠ "true".toList)) →
      storeLookup st key = some vw →
      vw.lockId = (splitOnChar '/' path).getD 3 [] →
      queryGet rq = "false".toList →
      valuesHandler st Method.post path rq body r
        = some (Resp.noContent, storeInsert st key (readBody vw body).1)) := by
  constructor
  · by_cases hc : (splitOnChar '/' path).length < 4 ∨
      (queryGet rq ≠ "false".toList ∧ queryGet rq ≠ "true".toList)
    · simp only [valuesHandler, hkey, hck]
      rw [if_pos hc]
      simpa using hc
    · constructor
      · intro h
        simp only [valuesHandler, hkey, hck] at h
        rw [if_neg hc] at h
        split at h
        · simp at h
        · split at h
          · simp at h
          · split at h
            · split at h <;> simp at h
            · simp at h
      · intro h
        exact absurd h hc
  · intro vw hnc hlook hlock hrel
    simp only [valuesHandler, hkey, hck, hlook]
    rw [if_neg hnc]
    rw [if_neg (show ¬vw.lockId ≠ (splitOnChar '/' path).getD 3 [] by simp [hlock])]
    rw [if_neg (show ¬queryGet rq = "true".toList by rw [hrel]; decide)]

/-- Witness for claim C2's amended theorem: a POST with the release flag
absent (and the lock-id path segment also absent) is rejected as
malformed. -/
theorem values_post_release_flag_required_witness :
    valuesHandler [] Method.post "/values/k".toList none (Except.ok [])
        ⟨List.replicate 16 0, none⟩
      = some (Resp.badRelease, []) :=
  ((values_post_release_flag_required [] "/values/k".toList none (Except.ok [])
      ⟨List.replicate 16 0, none⟩ "k".toList (by decide) (by decide)).1).mpr
    (by decide)

/-- Claim C3 (counterexample): the /reservations/ handler performs no key
validation: a POST to /reservations/ (empty key) is answered NotFound,
not KeyMissing. -/
theorem reservations_empty_key_not_validated :
    reservationsHandler [] Method.post "/reservations/".toList
        ⟨List.replicate 16 0, none⟩ = (Resp.notFound, []) ∧
    Resp.notFound ≠ Resp.keyError KeyErr.keyMissing := by decide

/-- Claim C3 (amended): only the /values/ endpoint validates keys: an
empty key segment there is rejected as KeyMissing before any directory
access (the store is returned untouched); the /reservations/ endpoint
never reports a key-validation error, and an empty or '/'-containing key
there is simply looked up, yielding NotFound when absent. -/
theorem key_validation_values_only (st : Store) :
    (∀ (method : Method) (path : Str) (rq : Option Str) (body : Body) (r : RandRead),
        (splitOnChar '/' path).get? 2 = some [] →
        valuesHandler st method path rq body r
          = some (Resp.keyError KeyErr.keyMissing, st)) ∧
    (∀ (method : Method) (path : Str) (r : RandRead) (e : KeyErr),
        (reservationsHandler st method path r).1 ≠ Resp.keyError e) ∧
    reservationsHandler [] Method.post "/reservations/a/b".toList
        ⟨List.replicate 16 0, none⟩ = (Resp.notFound, []) := by
  refine ⟨?_, ?_, by decide⟩
  · intro method path rq body r hkey
    rw [List.get?_eq_getElem?] at hkey
    simp [valuesHandler, hkey, checkKey]
  · intro method path r e
    simp only [reservationsHandler]
    split
    · simp
    · split
      · simp
      · simp

/-- Witness for claim C3's amended theorem: a POST to /values/ (empty key
segment) is rejected as KeyMissing with the store untouched. -/
theorem key_validation_values_only_witness :
    valuesHandler [] Method.post "/values/".toList none (Except.ok [])
        ⟨List.replicate 16 0, none⟩
      = some (Resp.keyError KeyErr.keyMissing, []) :=
  (key_validation_values_only []).1 Method.post "/values/".toList none
    (Except.ok []) ⟨List.replicate 16 0, none⟩ (by decide)

/-- Claim C4 (code bug exhibited): when the crypto/rand read fails (the
buffer keeps its zero initialization and an error is reported), genLockId
still returns a token — the hex encoding of the zero buffer, 32 '0'
characters — and an acquisition performed with that outcome stores this
degraded token instead of failing with an internal error. -/
theorem genLockId_issues_token_on_entropy_failure :
    genLockId ⟨List.replicate 16 0, some "EOF".toList⟩ = List.replicate 32 '0' ∧
    (ValueWr.Lock ⟨"v".toList, [], false⟩
        ⟨List.replicate 16 0, some "EOF".toList⟩).lockId ≠ [] ∧
    (ValueWr.Lock ⟨"v".toList, [], false⟩
        ⟨List.replicate 16 0, some "EOF".toList⟩).muxHeld = true := by decide

/-- Claim C5: the invariant "lock id non-empty iff the entry's mutex is
held" holds of every entry after any operation, given it held before:
acquisition stores the freshly generated (non-empty) token with the
mutex held, release clears the token with the mutex freed, and both
handlers map stores satisfying the invariant to stores satisfying it. -/
theorem lockId_nonempty_iff_mux_held (st : Store) (r : RandRead)
    (hr : r.bytes.length = LockIdLength) (hst : StoreInv st) :
    (∀ vw : ValueWr, (ValueWr.Lock vw r).lockId = genLockId r ∧
      (ValueWr.Lock vw r).muxHeld = true ∧ EntryInv (ValueWr.Lock vw r)) ∧
    (∀ vw vw' : ValueWr, ValueWr.Unlock vw = some vw' →
      vw'.lockId = [] ∧ vw'.muxHeld = false ∧ EntryInv vw') ∧
    (∀ (method : Method) (path : Str) (rq : Option Str) (body : Body)
        (resp : Resp) (st' : Store),
      valuesHandler st method path rq body r = some (resp, st') → StoreInv st') ∧
    (∀ (method : Method) (path : Str) (resp : Resp) (st' : Store),
      reservationsHandler st method path r = (resp, st') → StoreInv st') := by
  refine ⟨fun vw => ⟨rfl, rfl, EntryInv_Lock vw r hr⟩,
    fun vw vw' h => EntryInv_Unlock vw vw' h, ?_, ?_⟩
  · intro method path rq body resp st' h
    exact StoreInv_valuesHandler st r hr hst method path rq body resp st' h
  · intro method path resp st' h
    exact StoreInv_reservationsHandler st r hr hst method path resp st' h

/-- Witness for claim C5's theorem: a freshly acquired entry satisfies
the invariant. -/
theorem lockId_nonempty_iff_mux_held_witness :
    EntryInv (ValueWr.Lock ⟨[], [], false⟩ ⟨List.replicate 16 0, none⟩) :=
  ((lockId_nonempty_iff_mux_held [] ⟨List.replicate 16 0, none⟩
      (by decide) (by decide)).1 ⟨[], [], false⟩).2.2

/-- Claim C6: every failing authorized write-or-release (key validation
error, malformed release, NotFound, or Unauthorized) returns the store
exactly as it was: no entry created, no value overwritten, no lock state
changed. -/
theorem failed_values_post_leaves_store_unchanged (st : Store) (path : Str)
    (rq : Option Str) (body : Body) (r : RandRead) (resp : Resp) (st' : Store)
    (h : valuesHandler st Method.post path rq body r = some (resp, st'))
    (hfail : (∃ e, resp = Resp.keyError e) ∨ resp = Resp.badRelease ∨
      resp = Resp.notFound ∨ resp = Resp.unauthorized) :
    st' = st := by
  simp only [valuesHandler] at h
  split at h
  · exact absurd h (by simp)
  · split at h
    · simp only [Option.some.injEq, Prod.mk.injEq] at h
      exact h.2.symm
    · split at h
      · simp only [Option.some.injEq, Prod.mk.injEq] at h
        exact h.2.symm
      · split at h
        · simp only [Option.some.injEq, Prod.mk.injEq] at h
          exact h.2.symm
        · split at h
          · simp only [Option.some.injEq, Prod.mk.injEq] at h
            exact h.2.symm
          · split at h
            · split at h
              · exact absurd h (by simp)
              · simp only [Option.some.injEq, Prod.mk.injEq] at h
                obtain ⟨h1, h2⟩ := h
                subst h1
                rcases hfail with ⟨e, he⟩ | he | he | he <;> simp at he
            · simp only [Option.some.injEq, Prod.mk.injEq] at h
              obtain ⟨h1, h2⟩ := h
              subst h1
              rcases hfail with ⟨e, he⟩ | he | he | he <;> simp at he

/-- Witness for claim C6's theorem: an Unauthorized POST (wrong lock id
against a locked entry) leaves the store equal to itself. -/
theorem failed_values_post_leaves_store_unchanged_witness :
    ([("k".toList, ⟨"v".toList, "t".toList, true⟩)] : Store)
      = [("k".toList, ⟨"v".toList, "t".toList, true⟩)] :=
  failed_values_post_leaves_store_unchanged
    [("k".toList, ⟨"v".toList, "t".toList, true⟩)] "/values/k/x".toList
    (some "false".toList) (Except.ok "w".toList) ⟨List.replicate 16 0, none⟩
    Resp.unauthorized [("k".toList, ⟨"v".toList, "t".toList, true⟩)]
    (by decide) (Or.inr (Or.inr (Or.inr rfl)))

/-- Claim C7 (counterexample): a POST whose body read fails still answers
204 No Content — the internal read failure is converted into a success
response (the value is left unchanged). -/
theorem values_post_success_despite_body_error :
    valuesHandler [("k".toList, ⟨"v".toList, "t".toList, true⟩)] Method.post
        "/values/k/t".toList (some "false".toList) (Except.error "broken".toList)
        ⟨List.replicate 16 0, none⟩
      = some (Resp.noContent, [("k".toList, ⟨"v".toList, "t".toList, true⟩)]) := by
  decide

/-- Claim C7 (amended): a failure while reading the supplied bytes of a
write is logged and deliberately ignored, not propagated: the authorized
POST still answers 204 with the entry exactly as before the request, and
the PUT still answers 200 with the fresh lock id, the entry locked and
its value unchanged. -/
theorem body_read_error_ignored :
    (∀ (st : Store) (path : Str) (rq : Option Str) (r : RandRead)
        (key : Str) (vw : ValueWr) (e : Str),
      (splitOnChar '/' path).get? 2 = some key →
      checkKey key = none →
      ¬((splitOnChar '/' path).length < 4 ∨
        (queryGet rq ≠ "false".toList ∧ queryGet rq ≠ "true".toList)) →
      storeLookup st key = some vw →
      vw.lockId = (splitOnChar '/' path).getD 3 [] →
      queryGet rq = "false".toList →
      valuesHandler st Method.post path rq (Except.error e) r
        = some (Resp.noContent, storeInsert st key vw)) ∧
    (∀ (st : Store) (path : Str) (rq : Option Str) (r : RandRead)
        (key : Str) (e : Str),
      (splitOnChar '/' path).get? 2 = some key →
      checkKey key = none →
      valuesHandler st Method.put path rq (Except.error e) r
        = some (Resp.okJson (genLockId r) none,
            storeInsert st key
              (ValueWr.Lock ((storeLookup st key).getD ⟨[], [], false⟩) r))) := by
  constructor
  · intro st path rq r key vw e hkey hck hnc hlook hlock hrel
    simp only [valuesHandler, hkey, hck, hlook]
    rw [if_neg hnc]
    rw [if_neg (show ¬vw.lockId ≠ (splitOnChar '/' path).getD 3 [] by simp [hlock])]
    rw [if_neg (show ¬queryGet rq = "true".toList by rw [hrel]; decide)]
    simp [readBody]
  · intro st path rq r key e hkey hck
    simp only [valuesHandler, hkey, hck, readBody]
    rfl

/-- Witness for claim C7's amended theorem: a POST with a failing body
read still answers 204 with the entry untouched. -/
theorem body_read_error_ignored_witness :
    valuesHandler [("k".toList, ⟨"v".toList, "t".toList, true⟩)] Method.post
        "/values/k/t".toList (some "false".toList) (Except.error "oops".toList)
        ⟨List.replicate 16 0, none⟩
      = some (Resp.noContent,
          storeInsert [("k".toList, ⟨"v".toList, "t".toList, true⟩)] "k".toList
            ⟨"v".toList, "t".toList, true⟩) :=
  body_read_error_ignored.1 [("k".toList, ⟨"v".toList, "t".toList, true⟩)]
    "/values/k/t".toList (some "false".toList) ⟨List.replicate 16 0, none⟩
    "k".toList ⟨"v".toList, "t".toList, true⟩ "oops".toList
    (by decide) (by decide) (by decide) (by decide) (by decide) (by decide)

/-- Claim C8: in the synchronization trace of valueWr.Lock, entered with
the store guard held, the guard is not held at the unique step that
blocks on the entry's mutex, every re-acquisition of the guard comes
strictly after that blocking step, and the guard is held again when the
function returns — so the directory guard never overlaps a blocking
entry-lock wait. -/
theorem store_guard_released_while_blocking :
    (∀ i : Fin lockBody.length, lockBody.get i = LockStep.blockOnEntryMux →
      guardHeldAt true lockBody i = false) ∧
    (∀ i j : Fin lockBody.length, lockBody.get i = LockStep.blockOnEntryMux →
      lockBody.get j = LockStep.acquireStoreGuard → (i : Nat) < (j : Nat)) ∧
    guardHeldAt true lockBody lockBody.length = true := by decide

/-- Witness for claim C8's theorem: at the blocking step (index 1) the
guard is released, and it is held again at exit. -/
theorem store_guard_released_while_blocking_witness :
    guardHeldAt true lockBody 1 = false ∧
    guardHeldAt true lockBody lockBody.length = true :=
  ⟨store_guard_released_while_blocking.1 ⟨1, by decide⟩ rfl,
    store_guard_released_while_blocking.2.2⟩

/-- Claim C9: the /values/ handler always operates on the third
'/'-separated path segment as the key and the fourth as the lock id, so
the key never contains '/' and the KeyInvalid rejection is unreachable
from this handler; concretely, /values/a/b is an operation on key "a"
with lock-id segment "b" (here an authorized overwrite), not a
rejection. -/
theorem values_key_is_third_segment :
    (∀ (st : Store) (method : Method) (path : Str) (rq : Option Str)
        (body : Body) (r : RandRead) (resp : Resp) (st' : Store),
      valuesHandler st method path rq body r = some (resp, st') →
      resp ≠ Resp.keyError KeyErr.keyInvalid) ∧
    ((splitOnChar '/' "/values/a/b".toList).get? 2 = some "a".toList ∧
      (splitOnChar '/' "/values/a/b".toList).getD 3 [] = "b".toList ∧
      checkKey "a".toList = none) ∧
    valuesHandler [("a".toList, ⟨"v".toList, "b".toList, true⟩)] Method.post
        "/values/a/b".toList (some "false".toList) (Except.ok "w".toList)
        ⟨List.replicate 16 0, none⟩
      = some (Resp.noContent, [("a".toList, ⟨"w".toList, "b".toList, true⟩)]) := by
  refine ⟨?_, by decide, by decide⟩
  intro st method path rq body r resp st' h
  exact keyInvalid_unreachable st method path rq body r resp st' h

/-- Witness for claim C9's theorem: a concrete handler response is not
the KeyInvalid rejection. -/
theorem values_key_is_third_segment_witness :
    Resp.badRelease ≠ Resp.keyError KeyErr.keyInvalid :=
  values_key_is_third_segment.1 [] Method.post "/values/k".toList none
    (Except.ok []) ⟨List.replicate 16 0, none⟩ Resp.badRelease [] (by decide)

/-- Claim C10: genLockId always returns a string of exactly 32 (= 2 times
LockIdLength) characters drawn from the lowercase hexadecimal alphabet,
for any outcome of the random read — the error report is ignored, so the
same shape is returned when the random source fails. -/
theorem genLockId_hex_shape (r : RandRead)
    (h1 : r.bytes.length = LockIdLength) (h2 : ∀ b ∈ r.bytes, b < 256) :
    (genLockId r).length = 2 * LockIdLength ∧ ∀ c ∈ genLockId r, c ∈ hexDigits := by
  refine ⟨?_, hexEncode_mem r.bytes h2⟩
  simp [genLockId, hexEncode_length, h1]

/-- Witness for claim C10's theorem: the shape holds on a buffer of 0xff
bytes whose read reported an error. -/
theorem genLockId_hex_shape_witness :
    (genLockId ⟨List.replicate 16 255, some "boom".toList⟩).length
      = 2 * LockIdLength ∧
    ∀ c ∈ genLockId ⟨List.replicate 16 255, some "boom".toList⟩, c ∈ hexDigits :=
  genLockId_hex_shape ⟨List.replicate 16 255, some "boom".toList⟩
    (by decide) (by decide)
